import Mathlib

/-!
Shallow embedding of the candidate filtering engine of `src/js/app.js`
(functions `findOiers`, `buildWhereClauseAndValues`, `executeQuery`,
`displayResults`), together with theorems settling the specification
claims about it.

The backing SQLite store is modelled as in-memory lists of rows; each SQL
statement the engine issues is modelled by the corresponding pure lookup
over those lists.  JavaScript `null` becomes `Option.none`, JS `Set`
becomes `Finset Nat`, and the per-constraint loop of `findOiers` becomes
the structurally recursive `runConstraints`, which also records a trace of
the per-constraint state (candidate set, enumeration mode, scoping) so
that claims about lookups and mode switching can be stated.
-/

namespace OIerFinder

/-- Row of the `OIer` table (columns used by the application). -/
structure OIer where
  uid : Nat
  name : String
  gender : Int
  enroll_middle : Int
  oierdb_score : Int
  ccf_score : Int
  ccf_level : Int
deriving DecidableEq

/-- Row of the `Contest` table. -/
structure Contest where
  id : Nat
  year : Int
  type : String
deriving DecidableEq

/-- Row of the `Record` table. -/
structure ContestRecord where
  oier_uid : Nat
  contest_id : Nat
  score : Int
  rank : Int
  province : String
  level : String
deriving DecidableEq

/-- The loaded database: the two tables the engine reads plus `Contest`. -/
structure DB where
  oiers : List OIer
  records : List ContestRecord
  contests : List Contest
deriving DecidableEq

/-- A `[min, max]` pair whose sides are independently nullable. -/
abbrev RangePair := Option Int × Option Int

/-- One element of `config.records` (a record-level constraint object). -/
structure RecordConstraint where
  year_range : Option RangePair := none
  rank_range : Option RangePair := none
  score_range : Option RangePair := none
  province : Option (List String) := none
  contest_type : Option (List String) := none
  level_range : Option (List String) := none
deriving DecidableEq

/-- The canonical query configuration object passed to `findOiers`. -/
structure QueryConfig where
  enroll_year_range : Option RangePair := none
  grade_range : Option RangePair := none
  records : Option (List RecordConstraint) := none
deriving DecidableEq

/-- Constant `ENUMERATE_THRESHOLD` from `app.js`. -/
def ENUMERATE_THRESHOLD : Nat := 20

/-- One compiled SQL condition over the `Record r JOIN Contest c` view, as
produced by `buildWhereClauseAndValues` (one constructor per condition
shape pushed by the JS code, with its bound value inlined), plus the
`r.oier_uid IN (...)` condition appended in enumeration mode. -/
inductive Cond where
  | geYear (v : Int)
  | leYear (v : Int)
  | geScore (v : Int)
  | leScore (v : Int)
  | geRank (v : Int)
  | leRank (v : Int)
  | inProvince (vs : List String)
  | inLevel (vs : List String)
  | inType (vs : List String)
  | uidIn (uids : Finset Nat)
deriving DecidableEq

/-- Evaluation of one compiled condition at a joined row `(r, c)`. -/
def evalCond (r : ContestRecord) (c : Contest) : Cond → Bool
  | .geYear v => decide (v ≤ c.year)
  | .leYear v => decide (c.year ≤ v)
  | .geScore v => decide (v ≤ r.score)
  | .leScore v => decide (r.score ≤ v)
  | .geRank v => decide (v ≤ r.rank)
  | .leRank v => decide (r.rank ≤ v)
  | .inProvince vs => vs.contains r.province
  | .inLevel vs => vs.contains r.level
  | .inType vs => vs.contains c.type
  | .uidIn us => decide (r.oier_uid ∈ us)

/-- Compilation of one range field, mirroring the guard
`params[field] && params[field].some(v => v !== null)` and the two
conditional pushes (lower bound then upper bound) in
`buildWhereClauseAndValues`. -/
def rangeConds (p : Option RangePair) (mkGe mkLe : Int → Cond) : List Cond :=
  match p with
  | none => []
  | some (minV, maxV) =>
    if minV.isSome || maxV.isSome then
      (match minV with | some v => [mkGe v] | none => []) ++
      (match maxV with | some v => [mkLe v] | none => [])
    else []

/-- Compilation of one list field, mirroring the guard
`params[field] && params[field].length > 0` and the single
`IN (...)` push in `buildWhereClauseAndValues`. -/
def listConds (p : Option (List String)) (mk : List String → Cond) : List Cond :=
  match p with
  | none => []
  | some vs => if 0 < vs.length then [mk vs] else []

/-- `buildWhereClauseAndValues` from `app.js`: the compiled conditions of
one record constraint, with range fields iterated in the object order
`year_range, score_range, rank_range` and list fields in the order
`province, level_range, contest_type`.  The empty list plays the role of
the `"1=1"` clause: a conjunction with no conjuncts matches every row. -/
def buildWhereClauseAndValues (params : RecordConstraint) : List Cond :=
  rangeConds params.year_range Cond.geYear Cond.leYear ++
  rangeConds params.score_range Cond.geScore Cond.leScore ++
  rangeConds params.rank_range Cond.geRank Cond.leRank ++
  listConds params.province Cond.inProvince ++
  listConds params.level_range Cond.inLevel ++
  listConds params.contest_type Cond.inType

/-- The lookup `SELECT DISTINCT r.oier_uid FROM Record r JOIN Contest c ON
r.contest_id = c.id WHERE <conds>`, returned as a set of uids. -/
def joinMatches (db : DB) (conds : List Cond) : Finset Nat :=
  ((db.records.filter (fun r =>
      db.contests.any (fun c =>
        r.contest_id == c.id && conds.all (evalCond r c)))).map
    (fun r => r.oier_uid)).toFinset

/-- One compiled condition on the `OIer` table (`enroll_middle >= ?` or
`enroll_middle <= ?`). -/
inductive OCond where
  | ge (v : Int)
  | le (v : Int)
deriving DecidableEq

/-- Evaluation of one `OIer`-level condition at a row. -/
def evalOCond (o : OIer) : OCond → Bool
  | .ge v => decide (v ≤ o.enroll_middle)
  | .le v => decide (o.enroll_middle ≤ v)

/-- The conditions pushed by the `config.enroll_year_range` block of
`findOiers` (guard `config.enroll_year_range.some(v => v !== null)`,
then a push per present side). -/
def enrollConds (config : QueryConfig) : List OCond :=
  match config.enroll_year_range with
  | none => []
  | some (minYr, maxYr) =>
    if minYr.isSome || maxYr.isSome then
      (match minYr with | some v => [OCond.ge v] | none => []) ++
      (match maxYr with | some v => [OCond.le v] | none => [])
    else []

/-- The conditions pushed by the `config.grade_range` block of `findOiers`:
a present `maxGrade` pushes `enroll_middle >= currentYear - maxGrade + 7`
and a present `minGrade` pushes `enroll_middle <= currentYear - minGrade + 7`,
in that order.  `currentYear` is the value of `new Date().getFullYear()`,
passed explicitly here. -/
def gradeConds (currentYear : Int) (config : QueryConfig) : List OCond :=
  match config.grade_range with
  | none => []
  | some (minGrade, maxGrade) =>
    if minGrade.isSome || maxGrade.isSome then
      (match maxGrade with | some g => [OCond.ge (currentYear - g + 7)] | none => []) ++
      (match minGrade with | some g => [OCond.le (currentYear - g + 7)] | none => [])
    else []

/-- The full `oierConditions` array of `findOiers`: the enrollment-year
block followed by the grade block, all joined with `AND`. -/
def oierConditions (currentYear : Int) (config : QueryConfig) : List OCond :=
  enrollConds config ++ gradeConds currentYear config

/-- The lookup `SELECT uid FROM OIer WHERE <conds>` collected into a set. -/
def baseQuery (db : DB) (conds : List OCond) : Finset Nat :=
  ((db.oiers.filter (fun o => conds.all (evalOCond o))).map
    (fun o => o.uid)).toFinset

/-- `candidateUids` after step 1 of `findOiers`: the base lookup runs only
when `oierConditions.length > 0`; otherwise the candidates stay `null`. -/
def initialCandidates (db : DB) (currentYear : Int) (config : QueryConfig) :
    Option (Finset Nat) :=
  if 0 < (oierConditions currentYear config).length then
    some (baseQuery db (oierConditions currentYear config))
  else none

/-- Initial `enumerationMode`:
`candidateUids && candidateUids.size < ENUMERATE_THRESHOLD` (a `null`
candidate set is falsy). -/
def initialEnumerationMode (db : DB) (currentYear : Int) (config : QueryConfig) : Bool :=
  match initialCandidates db currentYear config with
  | some s => decide (s.card < ENUMERATE_THRESHOLD)
  | none => false

/-- Truthiness of `candidateUids && candidateUids.size > 0`. -/
def candHasElems : Option (Finset Nat) → Bool
  | some s => decide (0 < s.card)
  | none => false

/-- The uids spliced into the `IN (...)` placeholder
(`Array.from(candidateUids)`); the executed statement only ever uses them
as a membership test, so they are kept as the set itself. -/
def candSet : Option (Finset Nat) → Finset Nat
  | some s => s
  | none => ∅

/-- The where-clause actually executed for one constraint: in enumeration
mode with a non-empty candidate set, `AND r.oier_uid IN (...)` is appended. -/
def scopedConds (conds : List Cond) (cand : Option (Finset Nat)) (em : Bool) : List Cond :=
  if em && candHasElems cand then conds ++ [Cond.uidIn (candSet cand)] else conds

/-- The candidate set after one iteration of the constraint loop: the
distinct-uid lookup result, intersected with the previous set when that
set is not `null`. -/
def stepCand (db : DB) (constraint : RecordConstraint)
    (cand : Option (Finset Nat)) (em : Bool) : Finset Nat :=
  let matched := joinMatches db (scopedConds (buildWhereClauseAndValues constraint) cand em)
  match cand with
  | none => matched
  | some s => s ∩ matched

/-- The enumeration-mode flag after one iteration:
`if (!enumerationMode && candidateUids && candidateUids.size < ENUMERATE_THRESHOLD)
 enumerationMode = true` (the just-assigned candidate set is never `null`). -/
def stepEm (em : Bool) (cand : Finset Nat) : Bool :=
  if !em && decide (cand.card < ENUMERATE_THRESHOLD) then true else em

/-- Trace entry for one executed iteration of the record-constraint loop:
the state when its lookup was issued, whether the lookup was scoped to the
candidate set, and the state after the intersection and mode update. -/
structure StepTrace where
  candBefore : Option (Finset Nat)
  emBefore : Bool
  scopedLookup : Bool
  candAfter : Finset Nat
  emAfter : Bool
deriving DecidableEq

/-- The record-constraint loop of `findOiers` (step 2): returns the final
`candidateUids` together with the trace of executed iterations.  The
`break` on an empty candidate set ends the trace early. -/
def runConstraints (db : DB) :
    List RecordConstraint → Option (Finset Nat) → Bool →
    Option (Finset Nat) × List StepTrace
  | [], cand, _ => (cand, [])
  | constraint :: rest, cand, em =>
    let cand2 := stepCand db constraint cand em
    let em2 := stepEm em cand2
    let ev : StepTrace := ⟨cand, em, em && candHasElems cand, cand2, em2⟩
    if cand2.card = 0 then
      (some cand2, [ev])
    else
      let res := runConstraints db rest (some cand2) em2
      (res.1, ev :: res.2)

/-- `config.records || []`. -/
def recordConstraintsOf (config : QueryConfig) : List RecordConstraint :=
  config.records.getD []

/-- Final `candidateUids` after the constraint loop. -/
def finalCandidates (db : DB) (currentYear : Int) (config : QueryConfig) :
    Option (Finset Nat) :=
  (runConstraints db (recordConstraintsOf config)
    (initialCandidates db currentYear config)
    (initialEnumerationMode db currentYear config)).1

/-- Trace of the executed record-constraint iterations of an evaluation. -/
def recordEvents (db : DB) (currentYear : Int) (config : QueryConfig) :
    List StepTrace :=
  (runConstraints db (recordConstraintsOf config)
    (initialCandidates db currentYear config)
    (initialEnumerationMode db currentYear config)).2

/-- `ORDER BY oierdb_score DESC`, modelled as a stable sort. -/
def sortByScoreDesc (l : List OIer) : List OIer :=
  l.insertionSort (fun a b => b.oierdb_score ≤ a.oierdb_score)

/-- `findOiers` from `app.js` (step 3, result fetching): the all-rows query
when nothing was ever constrained, the empty result when the candidate set
is `null` or empty, and otherwise the `uid IN (...)` query ordered by
score. -/
def findOiers (db : DB) (currentYear : Int) (config : QueryConfig) : List OIer :=
  let cand := finalCandidates db currentYear config
  if cand = none ∧ (oierConditions currentYear config).length = 0 ∧
      (recordConstraintsOf config).length = 0 then
    sortByScoreDesc db.oiers
  else
    match cand with
    | none => []
    | some s =>
      if s.card = 0 then []
      else sortByScoreDesc (db.oiers.filter (fun o => decide (o.uid ∈ s)))

/-- The store lookups issued by step 3 of `findOiers`, each tagged with the
candidate state at the moment it runs: the unconstrained all-rows query, or
the `uid IN (...)` fetch (issued only for a non-null, non-empty set). -/
def materializationLookups (db : DB) (currentYear : Int) (config : QueryConfig) :
    List (Option (Finset Nat)) :=
  let cand := finalCandidates db currentYear config
  if cand = none ∧ (oierConditions currentYear config).length = 0 ∧
      (recordConstraintsOf config).length = 0 then
    [none]
  else
    match cand with
    | none => []
    | some s => if s.card = 0 then [] else [some s]

/-- Every store lookup issued by one evaluation, in order, each tagged with
the candidate state at the moment it runs: the base `OIer` lookup (issued
only when `oierConditions` is non-empty), one join lookup per executed
record-constraint iteration, and the materialization lookups. -/
def lookupStates (db : DB) (currentYear : Int) (config : QueryConfig) :
    List (Option (Finset Nat)) :=
  (if 0 < (oierConditions currentYear config).length
    then [(none : Option (Finset Nat))] else []) ++
  (recordEvents db currentYear config).map (fun ev => ev.candBefore) ++
  materializationLookups db currentYear config

/-- Message of the `TypeError` raised when a method is read off the
uninitialized (undefined) global `db` binding; every path through
`findOiers` reads a method of `db` before doing anything else observable. -/
def uninitializedStoreMessage : String := "Cannot read properties of undefined"

/-- `findOiers` as called with a possibly-uninitialized store handle: with
`db` uninitialized the first store access throws, which surfaces as an
exceptional result. -/
def findOiersChecked (db : Option DB) (currentYear : Int) (config : QueryConfig) :
    Except String (List OIer) :=
  match db with
  | none => Except.error uninitializedStoreMessage
  | some d => Except.ok (findOiers d currentYear config)

/-- The cleanup applied per top-level key by `displayResults`: an array
value is kept only if it is non-empty and has a non-null element; for a
range pair this keeps it exactly when some side is present. -/
def cleanRange : Option RangePair → Option RangePair
  | none => none
  | some (a, b) => if a.isSome || b.isSome then some (a, b) else none

/-- The cleanup applied by `displayResults` to the `records` key: a
present array of constraint objects is kept exactly when non-empty. -/
def cleanRecords : Option (List RecordConstraint) → Option (List RecordConstraint)
  | none => none
  | some l => if 0 < l.length then some l else none

/-- The `cleanConfig` object built by `displayResults` for display: the
original configuration with empty or all-null top-level fields dropped. -/
def cleanConfig (config : QueryConfig) : QueryConfig :=
  ⟨cleanRange config.enroll_year_range, cleanRange config.grade_range,
    cleanRecords config.records⟩

/-- What the application surfaces for one submitted query: either the
result rows together with the configuration rendered alongside them, or an
error message written by `displayError`. -/
inductive Displayed where
  | results (oiers : List OIer) (shownConfig : QueryConfig)
  | error (message : String)
deriving DecidableEq

/-- `executeQuery` from `app.js`: rejects a missing configuration, runs
`findOiers` inside try/catch, and on any exception surfaces the single
generic message `Query execution failed: <cause>`. -/
def executeQuery (db : Option DB) (currentYear : Int)
    (config : Option QueryConfig) : Displayed :=
  match config with
  | none => Displayed.error "Invalid or empty configuration."
  | some cfg =>
    match findOiersChecked db currentYear cfg with
    | Except.error msg => Displayed.error ("Query execution failed: " ++ msg)
    | Except.ok oiers => Displayed.results oiers (cleanConfig cfg)

/-! Helper definitions used by the verification (not part of the source). -/

/-- The unscoped match set of one record constraint: the distinct uids
whose records satisfy the compiled predicate of the constraint. -/
def constraintMatches (db : DB) (con : RecordConstraint) : Finset Nat :=
  joinMatches db (buildWhereClauseAndValues con)

/-- Mathematical restatement of the narrowing loop as a pure fold of set
intersections of the unscoped match sets; used to prove order
independence. -/
def interAll (db : DB) : List RecordConstraint → Option (Finset Nat) → Option (Finset Nat)
  | [], cand => cand
  | con :: rest, none => interAll db rest (some (constraintMatches db con))
  | con :: rest, some s => interAll db rest (some (s ∩ constraintMatches db con))

/-! Lemmas about the narrowing loop. -/

lemma mem_joinMatches {db : DB} {conds : List Cond} {x : Nat} :
    x ∈ joinMatches db conds ↔
      ∃ r, (r ∈ db.records ∧
        (db.contests.any fun c => r.contest_id == c.id && conds.all (evalCond r c)) = true) ∧
        r.oier_uid = x := by
  simp [joinMatches, List.mem_filter]

lemma joinMatches_scoped (db : DB) (conds : List Cond) (s : Finset Nat) :
    joinMatches db (conds ++ [Cond.uidIn s]) = joinMatches db conds ∩ s := by
  ext x
  simp only [mem_joinMatches, Finset.mem_inter, List.all_append, List.all_cons, List.all_nil,
    Bool.and_true, Bool.and_eq_true, List.any_eq_true, evalCond, decide_eq_true_eq]
  constructor
  · rintro ⟨r, ⟨hr, c, hc, hid, hconds, hmem⟩, rfl⟩
    exact ⟨⟨r, ⟨hr, c, hc, hid, hconds⟩, rfl⟩, hmem⟩
  · rintro ⟨⟨r, ⟨hr, c, hc, hid, hconds⟩, rfl⟩, hmem⟩
    exact ⟨r, ⟨hr, c, hc, hid, hconds, hmem⟩, rfl⟩

lemma stepCand_none (db : DB) (con : RecordConstraint) (em : Bool) :
    stepCand db con none em = constraintMatches db con := by
  simp [stepCand, scopedConds, candHasElems, constraintMatches]

lemma stepCand_some (db : DB) (con : RecordConstraint) (s : Finset Nat) (em : Bool) :
    stepCand db con (some s) em = s ∩ constraintMatches db con := by
  unfold stepCand scopedConds
  by_cases h : (em && candHasElems (some s)) = true
  · rw [if_pos h, joinMatches_scoped]
    show s ∩ (constraintMatches db con ∩ candSet (some s)) = _
    show s ∩ (constraintMatches db con ∩ s) = _
    rw [Finset.inter_comm (constraintMatches db con) s, ← Finset.inter_assoc,
      Finset.inter_self]
  · rw [if_neg h]
    rfl

lemma interAll_some_empty (db : DB) (l : List RecordConstraint) :
    interAll db l (some ∅) = some ∅ := by
  induction l with
  | nil => rfl
  | cons con rest ih => simpa [interAll, Finset.empty_inter] using ih

lemma runConstraints_fst (db : DB) (l : List RecordConstraint) :
    ∀ (cand : Option (Finset Nat)) (em : Bool),
      (runConstraints db l cand em).1 = interAll db l cand := by
  induction l with
  | nil => intro cand em; rfl
  | cons con rest ih =>
    intro cand em
    cases cand with
    | none =>
      simp only [runConstraints]
      by_cases h : (stepCand db con none em).card = 0
      · rw [if_pos h]
        show some (stepCand db con none em) = interAll db (con :: rest) none
        rw [stepCand_none] at h ⊢
        rw [Finset.card_eq_zero] at h
        rw [interAll, h, interAll_some_empty]
      · rw [if_neg h]
        show (runConstraints db rest (some (stepCand db con none em))
          (stepEm em (stepCand db con none em))).1 = interAll db (con :: rest) none
        rw [ih, stepCand_none, interAll]
    | some s =>
      simp only [runConstraints]
      by_cases h : (stepCand db con (some s) em).card = 0
      · rw [if_pos h]
        show some (stepCand db con (some s) em) = interAll db (con :: rest) (some s)
        rw [stepCand_some] at h ⊢
        rw [Finset.card_eq_zero] at h
        rw [interAll, h, interAll_some_empty]
      · rw [if_neg h]
        show (runConstraints db rest (some (stepCand db con (some s) em))
          (stepEm em (stepCand db con (some s) em))).1 = interAll db (con :: rest) (some s)
        rw [ih, stepCand_some, interAll]

lemma interAll_some_foldl (db : DB) (l : List RecordConstraint) :
    ∀ s : Finset Nat, interAll db l (some s) =
      some (List.foldl (fun acc con => acc ∩ constraintMatches db con) s l) := by
  induction l with
  | nil => intro s; rfl
  | cons con rest ih => intro s; rw [interAll, ih]; rfl

lemma mem_foldl_inter (db : DB) (l : List RecordConstraint) :
    ∀ (s : Finset Nat) (x : Nat),
      x ∈ List.foldl (fun acc con => acc ∩ constraintMatches db con) s l ↔
        x ∈ s ∧ ∀ con ∈ l, x ∈ constraintMatches db con := by
  induction l with
  | nil => intro s x; simp
  | cons con rest ih =>
    intro s x
    rw [List.foldl_cons, ih]
    simp [List.forall_mem_cons, and_assoc, Finset.mem_inter]

lemma interAll_perm (db : DB) {l₁ l₂ : List RecordConstraint} (hp : l₁.Perm l₂) :
    ∀ cand, interAll db l₁ cand = interAll db l₂ cand := by
  intro cand
  cases cand with
  | some s =>
    rw [interAll_some_foldl, interAll_some_foldl]
    congr 1
    ext x
    rw [mem_foldl_inter, mem_foldl_inter]
    exact and_congr_right fun _ =>
      ⟨fun h con hc => h con (hp.mem_iff.mpr hc), fun h con hc => h con (hp.mem_iff.mp hc)⟩
  | none =>
    cases l₁ with
    | nil =>
      have h2 : l₂ = [] := hp.symm.eq_nil
      rw [h2]
    | cons c₁ r₁ =>
      cases l₂ with
      | nil => exact absurd hp.eq_nil (by simp)
      | cons c₂ r₂ =>
        rw [interAll, interAll, interAll_some_foldl, interAll_some_foldl]
        congr 1
        ext x
        rw [mem_foldl_inter, mem_foldl_inter]
        constructor
        · rintro ⟨h1, h2⟩
          have hall : ∀ con ∈ c₁ :: r₁, x ∈ constraintMatches db con := by
            intro con hc
            rcases List.mem_cons.mp hc with h | h
            · rw [h]; exact h1
            · exact h2 con h
          have hall2 : ∀ con ∈ c₂ :: r₂, x ∈ constraintMatches db con :=
            fun con hc => hall con (hp.mem_iff.mpr hc)
          exact ⟨hall2 c₂ (List.mem_cons_self c₂ r₂),
            fun con hc => hall2 con (List.mem_cons_of_mem c₂ hc)⟩
        · rintro ⟨h1, h2⟩
          have hall : ∀ con ∈ c₂ :: r₂, x ∈ constraintMatches db con := by
            intro con hc
            rcases List.mem_cons.mp hc with h | h
            · rw [h]; exact h1
            · exact h2 con h
          have hall2 : ∀ con ∈ c₁ :: r₁, x ∈ constraintMatches db con :=
            fun con hc => hall con (hp.mem_iff.mp hc)
          exact ⟨hall2 c₁ (List.mem_cons_self c₁ r₁),
            fun con hc => hall2 con (List.mem_cons_of_mem c₁ hc)⟩

lemma runConstraints_events_mem (db : DB) (l : List RecordConstraint) :
    ∀ cand em ev, ev ∈ (runConstraints db l cand em).2 →
      ev.scopedLookup = (ev.emBefore && candHasElems ev.candBefore) ∧
      ev.emAfter = stepEm ev.emBefore ev.candAfter ∧
      (∀ s, ev.candBefore = some s → ev.candAfter ⊆ s) := by
  induction l with
  | nil => intro cand em ev hmem; simp [runConstraints] at hmem
  | cons con rest ih =>
    intro cand em ev hmem
    simp only [runConstraints] at hmem
    by_cases hcard : (stepCand db con cand em).card = 0
    · rw [if_pos hcard] at hmem
      simp only [List.mem_singleton] at hmem
      subst hmem
      refine ⟨rfl, rfl, ?_⟩
      intro s hs
      show stepCand db con cand em ⊆ s
      rw [show cand = some s from hs, stepCand_some]
      exact Finset.inter_subset_left
    · rw [if_neg hcard] at hmem
      simp only [List.mem_cons] at hmem
      rcases hmem with rfl | hmem
      · refine ⟨rfl, rfl, ?_⟩
        intro s hs
        show stepCand db con cand em ⊆ s
        rw [show cand = some s from hs, stepCand_some]
        exact Finset.inter_subset_left
      · exact ih _ _ ev hmem

lemma runConstraints_headState (db : DB) (l : List RecordConstraint) :
    ∀ cand em ev, (runConstraints db l cand em).2.head? = some ev →
      ev.candBefore = cand ∧ ev.emBefore = em := by
  cases l with
  | nil => intro cand em ev h; simp [runConstraints] at h
  | cons con rest =>
    intro cand em ev h
    simp only [runConstraints] at h
    by_cases hcard : (stepCand db con cand em).card = 0
    · rw [if_pos hcard] at h
      simp only [List.head?_cons, Option.some.injEq] at h
      rw [← h]
      exact ⟨rfl, rfl⟩
    · rw [if_neg hcard] at h
      simp only [List.head?_cons, Option.some.injEq] at h
      rw [← h]
      exact ⟨rfl, rfl⟩

lemma runConstraints_chain (db : DB) (l : List RecordConstraint) :
    ∀ cand em,
      List.Chain' (fun a b => b.candBefore = some a.candAfter ∧ b.emBefore = a.emAfter)
        (runConstraints db l cand em).2 := by
  induction l with
  | nil => intro cand em; simp [runConstraints]
  | cons con rest ih =>
    intro cand em
    simp only [runConstraints]
    by_cases hcard : (stepCand db con cand em).card = 0
    · rw [if_pos hcard]
      exact List.chain'_singleton _
    · rw [if_neg hcard]
      show List.Chain' _ (_ :: (runConstraints db rest (some (stepCand db con cand em))
        (stepEm em (stepCand db con cand em))).2)
      rw [List.chain'_cons']
      refine ⟨?_, ih _ _⟩
      intro b hb
      exact runConstraints_headState db rest _ _ b hb

lemma runConstraints_final_subset (db : DB) (l : List RecordConstraint) :
    ∀ (s : Finset Nat) (em : Bool) (t : Finset Nat),
      (runConstraints db l (some s) em).1 = some t → t ⊆ s := by
  intro s em t h
  rw [runConstraints_fst, interAll_some_foldl, Option.some.injEq] at h
  intro x hx
  rw [← h] at hx
  exact ((mem_foldl_inter db l s x).mp hx).1

lemma runConstraints_final_subset_events (db : DB) (l : List RecordConstraint) :
    ∀ cand em ev, ev ∈ (runConstraints db l cand em).2 →
      ∀ s, ev.candBefore = some s →
      ∀ t, (runConstraints db l cand em).1 = some t → t ⊆ s := by
  induction l with
  | nil => intro cand em ev hmem; simp [runConstraints] at hmem
  | cons con rest ih =>
    intro cand em ev hmem s hs t ht
    simp only [runConstraints] at hmem ht
    by_cases hcard : (stepCand db con cand em).card = 0
    · rw [if_pos hcard] at hmem ht
      simp only [List.mem_singleton] at hmem
      subst hmem
      simp only [Option.some.injEq] at ht
      rw [← ht]
      show stepCand db con cand em ⊆ s
      rw [show cand = some s from hs, stepCand_some]
      exact Finset.inter_subset_left
    · rw [if_neg hcard] at hmem ht
      simp only [List.mem_cons] at hmem
      rcases hmem with rfl | hmem
      · have hsub : t ⊆ stepCand db con cand em :=
          runConstraints_final_subset db rest _ _ t ht
        refine hsub.trans ?_
        show stepCand db con cand em ⊆ s
        rw [show cand = some s from hs, stepCand_some]
        exact Finset.inter_subset_left
      · exact ih _ _ ev hmem s hs t ht

lemma runConstraints_empty_break (db : DB) (l : List RecordConstraint) :
    ∀ cand em evs₁ ev evs₂,
      (runConstraints db l cand em).2 = evs₁ ++ ev :: evs₂ →
      ev.candAfter.card = 0 →
      evs₂ = [] ∧ (runConstraints db l cand em).1 = some ev.candAfter := by
  induction l with
  | nil =>
    intro cand em evs₁ ev evs₂ h
    exact absurd h (by cases evs₁ <;> simp [runConstraints])
  | cons con rest ih =>
    intro cand em evs₁ ev evs₂ h h0
    simp only [runConstraints] at h ⊢
    by_cases hcard : (stepCand db con cand em).card = 0
    · rw [if_pos hcard] at h ⊢
      cases evs₁ with
      | nil =>
        simp only [List.nil_append, List.cons.injEq] at h
        obtain ⟨rfl, h2⟩ := h
        exact ⟨h2.symm, rfl⟩
      | cons e es =>
        simp only [List.cons_append, List.cons.injEq] at h
        exact absurd h.2.symm (by simp)
    · rw [if_neg hcard] at h ⊢
      cases evs₁ with
      | nil =>
        simp only [List.nil_append, List.cons.injEq] at h
        obtain ⟨rfl, _⟩ := h
        exact absurd h0 (by simpa using hcard)
      | cons e es =>
        simp only [List.cons_append, List.cons.injEq] at h
        exact ih _ _ es ev evs₂ h.2 h0

lemma findOiers_eq_of (db : DB) (Y : Int) (cfg1 cfg2 : QueryConfig)
    (h1 : oierConditions Y cfg1 = oierConditions Y cfg2)
    (h2 : finalCandidates db Y cfg1 = finalCandidates db Y cfg2)
    (h3 : (recordConstraintsOf cfg1).length = (recordConstraintsOf cfg2).length) :
    findOiers db Y cfg1 = findOiers db Y cfg2 := by
  unfold findOiers
  rw [h1, h2, h3]

lemma findOiers_of_empty (db : DB) (Y : Int) (cfg : QueryConfig) (s : Finset Nat)
    (hf : finalCandidates db Y cfg = some s) (hs : s.card = 0) :
    findOiers db Y cfg = [] ∧ materializationLookups db Y cfg = [] := by
  constructor
  · unfold findOiers
    rw [hf, if_neg (by simp)]
    show (if s.card = 0 then [] else _) = []
    rw [if_pos hs]
  · unfold materializationLookups
    rw [hf, if_neg (by simp)]
    show (if s.card = 0 then [] else _) = []
    rw [if_pos hs]

lemma runConstraints_congr (db : DB) :
    ∀ (l₁ l₂ : List RecordConstraint),
      l₁.map buildWhereClauseAndValues = l₂.map buildWhereClauseAndValues →
      ∀ cand em, runConstraints db l₁ cand em = runConstraints db l₂ cand em := by
  intro l₁
  induction l₁ with
  | nil =>
    intro l₂ h cand em
    cases l₂ with
    | nil => rfl
    | cons c cs => simp at h
  | cons con rest ih =>
    intro l₂ h cand em
    cases l₂ with
    | nil => simp at h
    | cons con2 rest2 =>
      simp only [List.map_cons, List.cons.injEq] at h
      obtain ⟨hw, hrest⟩ := h
      simp only [runConstraints]
      have hstep : stepCand db con cand em = stepCand db con2 cand em := by
        unfold stepCand
        rw [hw]
      rw [hstep, ih rest2 hrest]

lemma findOiers_map_congr (db : DB) (Y : Int) (e g : Option RangePair)
    (l₁ l₂ : List RecordConstraint)
    (h : l₁.map buildWhereClauseAndValues = l₂.map buildWhereClauseAndValues) :
    findOiers db Y ⟨e, g, some l₁⟩ = findOiers db Y ⟨e, g, some l₂⟩ := by
  have hlen : l₁.length = l₂.length := by
    have h2 := congrArg List.length h
    simpa using h2
  refine findOiers_eq_of db Y _ _ rfl ?_ hlen
  show (runConstraints db l₁ (initialCandidates db Y ⟨e, g, some l₁⟩)
    (initialEnumerationMode db Y ⟨e, g, some l₁⟩)).1 = _
  rw [runConstraints_congr db l₁ l₂ h]
  rfl

lemma enrollConds_clean (cfg : QueryConfig) :
    enrollConds (cleanConfig cfg) = enrollConds cfg := by
  cases hE : cfg.enroll_year_range with
  | none => simp [cleanConfig, cleanRange, enrollConds, hE]
  | some q =>
    obtain ⟨a, b⟩ := q
    by_cases hab : (a.isSome || b.isSome) = true
    · simp [cleanConfig, cleanRange, enrollConds, hE, hab]
    · simp [cleanConfig, cleanRange, enrollConds, hE, hab]

lemma gradeConds_clean (Y : Int) (cfg : QueryConfig) :
    gradeConds Y (cleanConfig cfg) = gradeConds Y cfg := by
  cases hG : cfg.grade_range with
  | none => simp [cleanConfig, cleanRange, gradeConds, hG]
  | some q =>
    obtain ⟨a, b⟩ := q
    by_cases hab : (a.isSome || b.isSome) = true
    · simp [cleanConfig, cleanRange, gradeConds, hG, hab]
    · simp [cleanConfig, cleanRange, gradeConds, hG, hab]

lemma recordConstraintsOf_clean (cfg : QueryConfig) :
    recordConstraintsOf (cleanConfig cfg) = recordConstraintsOf cfg := by
  cases hR : cfg.records with
  | none => simp [cleanConfig, cleanRecords, recordConstraintsOf, hR]
  | some l =>
    cases l with
    | nil => simp [cleanConfig, cleanRecords, recordConstraintsOf, hR]
    | cons c cs => simp [cleanConfig, cleanRecords, recordConstraintsOf, hR]

/-- One range field written directly as the specification describes it: a
present lower bound contributes one inclusive lower condition, a present
upper bound one inclusive upper condition. -/
def sideConds (p : Option RangePair) (mkGe mkLe : Int → Cond) : List Cond :=
  match p with
  | none => []
  | some (lo, hi) => (lo.map mkGe).toList ++ (hi.map mkLe).toList

/-- One list field written directly as the specification describes it:
exactly one membership condition, present iff the field value is a
non-empty list. -/
def memberConds (p : Option (List String)) (mk : List String → Cond) : List Cond :=
  match p with
  | none => []
  | some vs => if vs = [] then [] else [mk vs]

/-- Semantics of one bound pair at a column value: every present side holds
as an inclusive inequality. -/
def boundSat (p : Option RangePair) (x : Int) : Prop :=
  match p with
  | none => True
  | some (lo, hi) => (∀ v, lo = some v → v ≤ x) ∧ (∀ v, hi = some v → x ≤ v)

/-- Semantics of one set filter at a column value: unconstrained when
absent or empty, membership otherwise. -/
def memberSat (p : Option (List String)) (x : String) : Prop :=
  match p with
  | none => True
  | some vs => vs = [] ∨ x ∈ vs

/-- A bound-pair field that is absent or has both sides null. -/
def fieldAbsent : Option RangePair → Prop
  | none => True
  | some (lo, hi) => lo = none ∧ hi = none

/-- A set-filter field that is absent or explicitly the empty list. -/
def fieldEmptyList : Option (List String) → Prop
  | none => True
  | some vs => vs = []

/-- A record constraint in which no field is present or non-empty. -/
def trivialConstraintP (rc : RecordConstraint) : Prop :=
  fieldAbsent rc.year_range ∧ fieldAbsent rc.rank_range ∧ fieldAbsent rc.score_range ∧
  fieldEmptyList rc.province ∧ fieldEmptyList rc.contest_type ∧ fieldEmptyList rc.level_range

lemma rangeConds_eq_sideConds (p : Option RangePair) (mkGe mkLe : Int → Cond) :
    rangeConds p mkGe mkLe = sideConds p mkGe mkLe := by
  cases p with
  | none => rfl
  | some q =>
    obtain ⟨lo, hi⟩ := q
    cases lo <;> cases hi <;> simp [rangeConds, sideConds]

lemma listConds_eq_memberConds (p : Option (List String)) (mk : List String → Cond) :
    listConds p mk = memberConds p mk := by
  cases p with
  | none => rfl
  | some vs => cases vs <;> simp [listConds, memberConds]

lemma sideConds_all {r : ContestRecord} {c : Contest} {x : Int}
    {p : Option RangePair} {mkGe mkLe : Int → Cond}
    (hg : ∀ v, evalCond r c (mkGe v) = decide (v ≤ x))
    (hl : ∀ v, evalCond r c (mkLe v) = decide (x ≤ v)) :
    ((sideConds p mkGe mkLe).all (evalCond r c) = true ↔ boundSat p x) := by
  cases p with
  | none => simp [sideConds, boundSat]
  | some q =>
    obtain ⟨lo, hi⟩ := q
    cases lo <;> cases hi <;> simp [sideConds, boundSat, hg, hl]

lemma memberConds_all {r : ContestRecord} {c : Contest} {x : String}
    {p : Option (List String)} {mk : List String → Cond}
    (h : ∀ vs, evalCond r c (mk vs) = vs.contains x) :
    ((memberConds p mk).all (evalCond r c) = true ↔ memberSat p x) := by
  cases p with
  | none => simp [memberConds, memberSat]
  | some vs =>
    by_cases hvs : vs = []
    · simp [memberConds, memberSat, hvs]
    · simp [memberConds, memberSat, hvs, h]

lemma sideConds_of_absent {p : Option RangePair} (h : fieldAbsent p)
    (mkGe mkLe : Int → Cond) : sideConds p mkGe mkLe = [] := by
  cases p with
  | none => rfl
  | some q =>
    obtain ⟨lo, hi⟩ := q
    obtain ⟨h1, h2⟩ := h
    subst h1
    subst h2
    rfl

lemma memberConds_of_empty {p : Option (List String)} (h : fieldEmptyList p)
    (mk : List String → Cond) : memberConds p mk = [] := by
  cases p with
  | none => rfl
  | some vs =>
    have hvs : vs = [] := h
    subst hvs
    rfl

/-- The lower end of the conjunction of two optional lower bounds. -/
def andLower : Option Int → Option Int → Option Int
  | none, b => b
  | some a, none => some a
  | some a, some b => some (max a b)

/-- The upper end of the conjunction of two optional upper bounds. -/
def andUpper : Option Int → Option Int → Option Int
  | none, b => b
  | some a, none => some a
  | some a, some b => some (min a b)

/-- The configuration after grade-to-year translation as the specification
words describe the normalized configuration (this definition follows the
specification, not the source, and exists to compare against what the code
actually surfaces): grade bounds become enrollment-year bounds at the
current year, ANDed into `enroll_year_range`, and the grade field is
consumed by the translation. -/
def specNormalizedConfig (currentYear : Int) (config : QueryConfig) : QueryConfig :=
  match config.grade_range with
  | none => config
  | some (minG, maxG) =>
    let e := config.enroll_year_range.getD (none, none)
    ⟨some (andLower e.1 (maxG.map (fun g => currentYear - g + 7)),
           andUpper e.2 (minG.map (fun g => currentYear - g + 7))),
     none, config.records⟩

/-! Concrete example data used by witnesses and counterexamples. -/

/-- Example enrollee with uid 1, enrolled 2020, aggregate score 90. -/
def exOIer1 : OIer := ⟨1, "Alice", 1, 2020, 90, 50, 10⟩

/-- Example enrollee with uid 2, enrolled 2021, aggregate score 80. -/
def exOIer2 : OIer := ⟨2, "Bob", -1, 2021, 80, 40, 9⟩

/-- Example contest held in 2022. -/
def exContest1 : Contest := ⟨1, 2022, "NOI"⟩

/-- Example contest held in 2023. -/
def exContest2 : Contest := ⟨2, 2023, "CSP"⟩

/-- Example record: enrollee 1 in contest 1. -/
def exRecord1 : ContestRecord := ⟨1, 1, 100, 5, "ZJ", "Au"⟩

/-- Example record: enrollee 2 in contest 2. -/
def exRecord2 : ContestRecord := ⟨2, 2, 60, 50, "BJ", "Ag"⟩

/-- Example database with two enrollees, two records, two contests. -/
def exDB : DB := ⟨[exOIer1, exOIer2], [exRecord1, exRecord2], [exContest1, exContest2]⟩

/-- Record constraint with every field absent. -/
def trivialRC : RecordConstraint := ⟨none, none, none, none, none, none⟩

/-- Record constraint pinning the contest year. -/
def yearRC (y : Int) : RecordConstraint :=
  ⟨some (some y, some y), none, none, none, none, none⟩

/-! Claim theorems. -/

/-- C1: for every QueryConfig and every permutation of its `records`
sequence, evaluating the query with the permuted sequence yields the same
final candidate set and the same final result sequence (only the number of
store lookups may differ). -/
theorem records_order_independent (db : DB) (Y : Int) (e g : Option RangePair)
    (recs : Option (List RecordConstraint)) (recs2 : List RecordConstraint)
    (hp : (recordConstraintsOf ⟨e, g, recs⟩).Perm recs2) :
    finalCandidates db Y ⟨e, g, recs⟩ = finalCandidates db Y ⟨e, g, some recs2⟩ ∧
    findOiers db Y ⟨e, g, recs⟩ = findOiers db Y ⟨e, g, some recs2⟩ := by
  have hfc : finalCandidates db Y ⟨e, g, recs⟩ = finalCandidates db Y ⟨e, g, some recs2⟩ := by
    unfold finalCandidates
    rw [runConstraints_fst, runConstraints_fst]
    exact interAll_perm db hp _
  exact ⟨hfc, findOiers_eq_of db Y _ _ rfl hfc hp.length_eq⟩

/-- Witness for C1: swapping two year constraints on the example database
changes neither the final candidate set nor the result rows. -/
theorem records_order_independent_witness :
    finalCandidates exDB 2024 ⟨none, none, some [yearRC 2022, yearRC 2023]⟩ =
      finalCandidates exDB 2024 ⟨none, none, some [yearRC 2023, yearRC 2022]⟩ ∧
    findOiers exDB 2024 ⟨none, none, some [yearRC 2022, yearRC 2023]⟩ =
      findOiers exDB 2024 ⟨none, none, some [yearRC 2023, yearRC 2022]⟩ :=
  records_order_independent exDB 2024 none none (some [yearRC 2022, yearRC 2023])
    [yearRC 2023, yearRC 2022] (by decide)

/-- C2: a QueryConfig with no enrollment-year bounds, no grade bounds and
no record constraints returns every enrollee, sorted by `oierdb_score`
descending. -/
theorem no_constraints_all_sorted (db : DB) (Y : Int) (cfg : QueryConfig)
    (he : cfg.enroll_year_range = none ∨ cfg.enroll_year_range = some (none, none))
    (hg : cfg.grade_range = none ∨ cfg.grade_range = some (none, none))
    (hr : cfg.records = none ∨ cfg.records = some []) :
    findOiers db Y cfg = sortByScoreDesc db.oiers ∧
    (findOiers db Y cfg).Perm db.oiers ∧
    List.Sorted (fun a b => b.oierdb_score ≤ a.oierdb_score) (findOiers db Y cfg) := by
  have hoc : oierConditions Y cfg = [] := by
    unfold oierConditions enrollConds gradeConds
    rcases he with h | h <;> rcases hg with h2 | h2 <;> rw [h, h2] <;> simp
  have hrec : recordConstraintsOf cfg = [] := by
    unfold recordConstraintsOf
    rcases hr with h | h <;> rw [h] <;> rfl
  have hic : initialCandidates db Y cfg = none := by
    unfold initialCandidates
    rw [hoc]
    simp
  have hfc : finalCandidates db Y cfg = none := by
    unfold finalCandidates
    rw [hrec, hic]
    rfl
  have hmain : findOiers db Y cfg = sortByScoreDesc db.oiers := by
    unfold findOiers
    rw [hfc, hoc, hrec]
    simp
  refine ⟨hmain, ?_, ?_⟩
  · rw [hmain]
    exact List.perm_insertionSort _ db.oiers
  · rw [hmain]
    haveI h1 : IsTotal OIer (fun a b => b.oierdb_score ≤ a.oierdb_score) :=
      ⟨fun a b => le_total b.oierdb_score a.oierdb_score⟩
    haveI h2 : IsTrans OIer (fun a b => b.oierdb_score ≤ a.oierdb_score) :=
      ⟨fun _ _ _ hab hbc => le_trans hbc hab⟩
    exact List.sorted_insertionSort _ db.oiers

/-- Witness for C2 at the empty configuration on the example database. -/
theorem no_constraints_all_sorted_witness :
    findOiers exDB 2024 ⟨none, none, none⟩ = sortByScoreDesc exDB.oiers ∧
    (findOiers exDB 2024 ⟨none, none, none⟩).Perm exDB.oiers ∧
    List.Sorted (fun a b => b.oierdb_score ≤ a.oierdb_score)
      (findOiers exDB 2024 ⟨none, none, none⟩) :=
  no_constraints_all_sorted exDB 2024 ⟨none, none, none⟩
    (Or.inl rfl) (Or.inl rfl) (Or.inl rfl)

/-- C3: a present grade range is translated to enrollment-year bounds with
the current year Y as `min_enrollment = Y - max_grade + 7` (present only
with `max_grade`) and `max_enrollment = Y - min_grade + 7` (present only
with `min_grade`); the derived conditions are ANDed with the
enrollment-year conditions; for Y = 2024 and grade range [1, 3] the
derived bound is [2028, 2030]. -/
theorem grade_to_year_translation (Y : Int) (cfg : QueryConfig) (minG maxG : Option Int)
    (h : cfg.grade_range = some (minG, maxG)) :
    gradeConds Y cfg =
      (maxG.map (fun g => OCond.ge (Y - g + 7))).toList ++
      (minG.map (fun g => OCond.le (Y - g + 7))).toList ∧
    (∀ o : OIer, (oierConditions Y cfg).all (evalOCond o) =
      ((enrollConds cfg).all (evalOCond o) && (gradeConds Y cfg).all (evalOCond o))) ∧
    gradeConds 2024 ⟨none, some (some 1, some 3), none⟩ = [OCond.ge 2028, OCond.le 2030] := by
  refine ⟨?_, ?_, by decide⟩
  · unfold gradeConds
    rw [h]
    cases minG <;> cases maxG <;> simp
  · intro o
    unfold oierConditions
    rw [List.all_append]

/-- Witness for C3 with both grade bounds and both enrollment bounds
present. -/
theorem grade_to_year_translation_witness :
    gradeConds 2024 ⟨some (some 2020, some 2021), some (some 1, some 3), none⟩ =
      [OCond.ge 2028, OCond.le 2030] ∧
    (oierConditions 2024 ⟨some (some 2020, some 2021), some (some 1, some 3), none⟩).all
        (evalOCond exOIer1) =
      ((enrollConds ⟨some (some 2020, some 2021), some (some 1, some 3), none⟩).all
          (evalOCond exOIer1) &&
        (gradeConds 2024 ⟨some (some 2020, some 2021), some (some 1, some 3), none⟩).all
          (evalOCond exOIer1)) := by
  have h := grade_to_year_translation 2024
    ⟨some (some 2020, some 2021), some (some 1, some 3), none⟩ (some 1) (some 3) rfl
  exact ⟨by simpa using h.1, h.2.1 exOIer1⟩

/-- C4 counterexample: when the base filter yields an empty candidate set,
enumeration mode starts out true (0 is below the threshold), yet the
lookup of the first record constraint is NOT scoped to the candidate
identifiers, because the code only scopes when the candidate set is also
non-empty; this refutes the claim that once enumeration mode is true every
subsequent lookup is scoped. -/
theorem enumeration_scoping_cex :
    initialEnumerationMode exDB 2024 ⟨some (some 3000, none), none, some [trivialRC]⟩ = true ∧
    (recordEvents exDB 2024 ⟨some (some 3000, none), none, some [trivialRC]⟩).map
      (fun ev => ev.scopedLookup) = [false] := by decide

/-- C4 (amended): enumeration mode is initially true iff the base
candidate set is non-null with size below 20; it becomes true whenever the
candidate set size drops below 20 after a constraint; it never reverts to
false; and once it is true a subsequent lookup is scoped to the current
candidate identifiers exactly when that candidate set is also non-empty
(with an empty candidate set — possible only straight after an empty base
filter result — the lookup stays unscoped). -/
theorem enumeration_mode_invariants (db : DB) (Y : Int) (cfg : QueryConfig) :
    (initialEnumerationMode db Y cfg = true ↔
      ∃ s, initialCandidates db Y cfg = some s ∧ s.card < ENUMERATE_THRESHOLD) ∧
    (∀ ev ∈ recordEvents db Y cfg,
      ev.candAfter.card < ENUMERATE_THRESHOLD → ev.emAfter = true) ∧
    (∀ ev ∈ recordEvents db Y cfg, ev.emBefore = true → ev.emAfter = true) ∧
    List.Chain' (fun a b => b.candBefore = some a.candAfter ∧ b.emBefore = a.emAfter)
      (recordEvents db Y cfg) ∧
    (∀ ev ∈ recordEvents db Y cfg,
      ev.scopedLookup = (ev.emBefore && candHasElems ev.candBefore)) := by
  refine ⟨?_, ?_, ?_, runConstraints_chain db _ _ _, ?_⟩
  · unfold initialEnumerationMode
    cases hic : initialCandidates db Y cfg with
    | none => simp
    | some s =>
      simp only [decide_eq_true_eq, Option.some.injEq]
      constructor
      · intro h
        exact ⟨s, rfl, h⟩
      · rintro ⟨t, rfl, h⟩
        exact h
  · intro ev hmem hlt
    rw [(runConstraints_events_mem db _ _ _ ev hmem).2.1]
    unfold stepEm
    cases hb : ev.emBefore <;> simp [hlt]
  · intro ev hmem h1
    rw [(runConstraints_events_mem db _ _ _ ev hmem).2.1, h1]
    unfold stepEm
    simp
  · intro ev hmem
    exact (runConstraints_events_mem db _ _ _ ev hmem).1

/-- Witness for C4 (amended): on the example database with a small
non-empty base set, enumeration mode starts true and the one
record-constraint lookup is scoped. -/
theorem enumeration_mode_invariants_witness :
    initialEnumerationMode exDB 2024 ⟨some (some 2020, none), none, some [trivialRC]⟩ = true ∧
    (⟨some {1, 2}, true, true, {1, 2}, true⟩ : StepTrace).emAfter = true ∧
    (⟨some {1, 2}, true, true, {1, 2}, true⟩ : StepTrace).scopedLookup =
      ((⟨some {1, 2}, true, true, {1, 2}, true⟩ : StepTrace).emBefore &&
        candHasElems (⟨some {1, 2}, true, true, {1, 2}, true⟩ : StepTrace).candBefore) := by
  have h := enumeration_mode_invariants exDB 2024 ⟨some (some 2020, none), none, some [trivialRC]⟩
  refine ⟨h.1.mpr ⟨{1, 2}, by decide, by decide⟩, ?_, ?_⟩
  · exact h.2.1 ⟨some {1, 2}, true, true, {1, 2}, true⟩ (by decide) (by decide)
  · exact h.2.2.2.2 ⟨some {1, 2}, true, true, {1, 2}, true⟩ (by decide)

/-- C5 counterexample: when the base filter yields an empty candidate set
and a record constraint follows, the candidate set has size 0 right after
the base lookup, yet one further store lookup (the first record-constraint
join query, unscoped) is still issued; this refutes the claim that once
the candidate set has size 0 no further store lookups occur. -/
theorem empty_candidates_lookup_cex :
    initialCandidates exDB 2024 ⟨some (some 3000, none), none, some [trivialRC]⟩ = some ∅ ∧
    (recordEvents exDB 2024 ⟨some (some 3000, none), none, some [trivialRC]⟩).map
      (fun ev => ev.candBefore) = [some ∅] := by decide

/-- C5 (amended): once the candidate set has size 0 after processing a
record constraint, that constraint is the last one processed (no further
record-constraint lookups), no materialization lookup is issued, and the
final result is the empty sequence.  (If the base filter itself yields an
empty set, the first record constraint still incurs one lookup before the
loop stops; see the counterexample.) -/
theorem empty_candidates_short_circuit (db : DB) (Y : Int) (cfg : QueryConfig)
    (evs₁ : List StepTrace) (ev : StepTrace) (evs₂ : List StepTrace)
    (h : recordEvents db Y cfg = evs₁ ++ ev :: evs₂) (h0 : ev.candAfter.card = 0) :
    evs₂ = [] ∧ findOiers db Y cfg = [] ∧
    lookupStates db Y cfg =
      (if 0 < (oierConditions Y cfg).length then [(none : Option (Finset Nat))] else []) ++
      (recordEvents db Y cfg).map (fun ev => ev.candBefore) := by
  have hb := runConstraints_empty_break db (recordConstraintsOf cfg)
    (initialCandidates db Y cfg) (initialEnumerationMode db Y cfg) evs₁ ev evs₂ h h0
  have hf : finalCandidates db Y cfg = some ev.candAfter := hb.2
  have hfo := findOiers_of_empty db Y cfg ev.candAfter hf h0
  refine ⟨hb.1, hfo.1, ?_⟩
  unfold lookupStates
  rw [hfo.2, List.append_nil]

/-- Witness for C5 (amended): two year constraints with disjoint match
sets; the second constraint empties the candidate set and is the last
executed one, the result is empty, and the lookups are exactly the two
record-constraint join queries. -/
theorem empty_candidates_short_circuit_witness :
    ([] : List StepTrace) = [] ∧
    findOiers exDB 2024 ⟨none, none, some [yearRC 2022, yearRC 2023]⟩ = [] ∧
    lookupStates exDB 2024 ⟨none, none, some [yearRC 2022, yearRC 2023]⟩ =
      (if 0 < (oierConditions 2024 ⟨none, none, some [yearRC 2022, yearRC 2023]⟩).length
        then [(none : Option (Finset Nat))] else []) ++
      (recordEvents exDB 2024 ⟨none, none, some [yearRC 2022, yearRC 2023]⟩).map
        (fun ev => ev.candBefore) :=
  empty_candidates_short_circuit exDB 2024 ⟨none, none, some [yearRC 2022, yearRC 2023]⟩
    [⟨none, false, false, {1}, true⟩] ⟨some {1}, true, true, ∅, true⟩ []
    (by decide) (by decide)

/-- C6: for each set-filter field independently, a record constraint with
that field explicitly set to the empty list evaluates exactly like the
same constraint with the field absent. -/
theorem empty_set_filter_unconstrained (db : DB) (Y : Int) (e g : Option RangePair)
    (pre post : List RecordConstraint) (rc : RecordConstraint) :
    findOiers db Y ⟨e, g, some (pre ++
        ⟨rc.year_range, rc.rank_range, rc.score_range, some [], rc.contest_type,
          rc.level_range⟩ :: post)⟩ =
      findOiers db Y ⟨e, g, some (pre ++
        ⟨rc.year_range, rc.rank_range, rc.score_range, none, rc.contest_type,
          rc.level_range⟩ :: post)⟩ ∧
    findOiers db Y ⟨e, g, some (pre ++
        ⟨rc.year_range, rc.rank_range, rc.score_range, rc.province, some [],
          rc.level_range⟩ :: post)⟩ =
      findOiers db Y ⟨e, g, some (pre ++
        ⟨rc.year_range, rc.rank_range, rc.score_range, rc.province, none,
          rc.level_range⟩ :: post)⟩ ∧
    findOiers db Y ⟨e, g, some (pre ++
        ⟨rc.year_range, rc.rank_range, rc.score_range, rc.province, rc.contest_type,
          some []⟩ :: post)⟩ =
      findOiers db Y ⟨e, g, some (pre ++
        ⟨rc.year_range, rc.rank_range, rc.score_range, rc.province, rc.contest_type,
          none⟩ :: post)⟩ := by
  refine ⟨?_, ?_, ?_⟩ <;>
    · apply findOiers_map_congr
      simp [buildWhereClauseAndValues, listConds]

lemma sideConds_length_le (p : Option RangePair) (mkGe mkLe : Int → Cond) :
    (sideConds p mkGe mkLe).length ≤ 2 := by
  cases p with
  | none => simp [sideConds]
  | some q =>
    obtain ⟨lo, hi⟩ := q
    cases lo <;> cases hi <;> simp [sideConds]

lemma memberConds_length_le (p : Option (List String)) (mk : List String → Cond) :
    (memberConds p mk).length ≤ 1 := by
  cases p with
  | none => simp [memberConds]
  | some vs =>
    by_cases hvs : vs = [] <;> simp [memberConds, hvs]

/-- C7: the predicate compiler produces the concatenation of the per-field
condition lists, where each numeric bound field contributes up to two
independent inclusive inequality conditions (a present lower bound one
`>=`, a present upper bound one `<=`) on its target column, each set field
contributes exactly one membership condition iff it is non-empty, the
conjunction holds at a joined row iff every per-field condition holds
there, and a constraint with no present or non-empty field compiles to the
tautology matching every record. -/
theorem predicate_compiler_correct (rc : RecordConstraint) (r : ContestRecord) (c : Contest) :
    buildWhereClauseAndValues rc =
      sideConds rc.year_range Cond.geYear Cond.leYear ++
      sideConds rc.score_range Cond.geScore Cond.leScore ++
      sideConds rc.rank_range Cond.geRank Cond.leRank ++
      memberConds rc.province Cond.inProvince ++
      memberConds rc.level_range Cond.inLevel ++
      memberConds rc.contest_type Cond.inType ∧
    (sideConds rc.year_range Cond.geYear Cond.leYear).length ≤ 2 ∧
    (sideConds rc.score_range Cond.geScore Cond.leScore).length ≤ 2 ∧
    (sideConds rc.rank_range Cond.geRank Cond.leRank).length ≤ 2 ∧
    (memberConds rc.province Cond.inProvince).length ≤ 1 ∧
    (memberConds rc.level_range Cond.inLevel).length ≤ 1 ∧
    (memberConds rc.contest_type Cond.inType).length ≤ 1 ∧
    ((buildWhereClauseAndValues rc).all (evalCond r c) = true ↔
      (boundSat rc.year_range c.year ∧ boundSat rc.score_range r.score ∧
       boundSat rc.rank_range r.rank ∧ memberSat rc.province r.province ∧
       memberSat rc.level_range r.level ∧ memberSat rc.contest_type c.type)) ∧
    (trivialConstraintP rc → buildWhereClauseAndValues rc = [] ∧
      (buildWhereClauseAndValues rc).all (evalCond r c) = true) := by
  have hstr : buildWhereClauseAndValues rc =
      sideConds rc.year_range Cond.geYear Cond.leYear ++
      sideConds rc.score_range Cond.geScore Cond.leScore ++
      sideConds rc.rank_range Cond.geRank Cond.leRank ++
      memberConds rc.province Cond.inProvince ++
      memberConds rc.level_range Cond.inLevel ++
      memberConds rc.contest_type Cond.inType := by
    unfold buildWhereClauseAndValues
    rw [rangeConds_eq_sideConds, rangeConds_eq_sideConds, rangeConds_eq_sideConds,
      listConds_eq_memberConds, listConds_eq_memberConds, listConds_eq_memberConds]
  have h1 : ((sideConds rc.year_range Cond.geYear Cond.leYear).all (evalCond r c) = true) ↔
      boundSat rc.year_range c.year := sideConds_all (fun _ => rfl) (fun _ => rfl)
  have h2 : ((sideConds rc.score_range Cond.geScore Cond.leScore).all (evalCond r c) = true) ↔
      boundSat rc.score_range r.score := sideConds_all (fun _ => rfl) (fun _ => rfl)
  have h3 : ((sideConds rc.rank_range Cond.geRank Cond.leRank).all (evalCond r c) = true) ↔
      boundSat rc.rank_range r.rank := sideConds_all (fun _ => rfl) (fun _ => rfl)
  have h4 : ((memberConds rc.province Cond.inProvince).all (evalCond r c) = true) ↔
      memberSat rc.province r.province := memberConds_all (fun _ => rfl)
  have h5 : ((memberConds rc.level_range Cond.inLevel).all (evalCond r c) = true) ↔
      memberSat rc.level_range r.level := memberConds_all (fun _ => rfl)
  have h6 : ((memberConds rc.contest_type Cond.inType).all (evalCond r c) = true) ↔
      memberSat rc.contest_type c.type := memberConds_all (fun _ => rfl)
  refine ⟨hstr, sideConds_length_le _ _ _, sideConds_length_le _ _ _, sideConds_length_le _ _ _,
    memberConds_length_le _ _, memberConds_length_le _ _, memberConds_length_le _ _, ?_, ?_⟩
  · rw [hstr]
    simp only [List.all_append, Bool.and_eq_true]
    rw [h1, h2, h3, h4, h5, h6]
    tauto
  · intro ht
    obtain ⟨t1, t2, t3, t4, t5, t6⟩ := ht
    have hnil : buildWhereClauseAndValues rc = [] := by
      rw [hstr, sideConds_of_absent t1, sideConds_of_absent t3, sideConds_of_absent t2,
        memberConds_of_empty t4, memberConds_of_empty t6, memberConds_of_empty t5]
      rfl
    exact ⟨hnil, by rw [hnil]; rfl⟩

/-- Witness for C7: the all-absent record constraint compiles to the
tautology and accepts the example joined row. -/
theorem predicate_compiler_correct_witness :
    buildWhereClauseAndValues trivialRC = [] ∧
    (buildWhereClauseAndValues trivialRC).all (evalCond exRecord1 exContest1) = true :=
  (predicate_compiler_correct trivialRC exRecord1 exContest1).2.2.2.2.2.2.2.2
    ⟨trivial, trivial, trivial, trivial, trivial, trivial⟩

/-- C8 counterexample: with the store handle uninitialized, the surfaced
value is the generic `Query execution failed` wrapper around the cause;
the code has no distinct store-unavailable error value, so the surfaced
error does not distinguish store-unavailable from execution-failed as the
claim asserts. -/
theorem store_uninitialized_cex :
    executeQuery none 2024 (some ⟨none, none, none⟩) =
      Displayed.error ("Query execution failed: " ++ uninitializedStoreMessage) := by
  rfl

/-- C8 (amended): with the store handle uninitialized, every evaluation
call fails immediately with an error carrying the originating cause (never
a silently empty result set), but the error is surfaced through the same
generic `Query execution failed` wrapper used for execution failures, with
no distinct store-unavailable marker. -/
theorem store_uninitialized_fails (Y : Int) (cfg : QueryConfig) :
    executeQuery none Y (some cfg) =
      Displayed.error ("Query execution failed: " ++ uninitializedStoreMessage) := by
  rfl

/-- C9 counterexample: for a configuration with only a grade range, the
configuration surfaced with the results is the original (cleaned)
configuration, still carrying the untranslated grade range and no derived
enrollment bounds, and it differs from the normalized configuration that
grade-to-year translation (at Y = 2024, per the specification formula)
would produce. -/
theorem output_config_not_normalized_cex :
    executeQuery (some exDB) 2024 (some ⟨none, some (some 1, some 3), none⟩) =
      Displayed.results [] ⟨none, some (some 1, some 3), none⟩ ∧
    specNormalizedConfig 2024 ⟨none, some (some 1, some 3), none⟩ =
      ⟨some (some 2028, some 2030), none, none⟩ ∧
    (⟨none, some (some 1, some 3), none⟩ : QueryConfig) ≠
      ⟨some (some 2028, some 2030), none, none⟩ := by decide

/-- C9 (amended): the output comprises the ordered result rows together
with the original configuration cleaned of empty or all-null fields — not
a grade-to-year translated configuration — and the cleaned configuration
evaluates to exactly the same result as the configuration actually
evaluated. -/
theorem output_rows_and_clean_config (db : DB) (Y : Int) (cfg : QueryConfig) :
    executeQuery (some db) Y (some cfg) =
      Displayed.results (findOiers db Y cfg) (cleanConfig cfg) ∧
    findOiers db Y (cleanConfig cfg) = findOiers db Y cfg := by
  refine ⟨rfl, ?_⟩
  have hoc : oierConditions Y (cleanConfig cfg) = oierConditions Y cfg := by
    unfold oierConditions
    rw [enrollConds_clean, gradeConds_clean]
  have hrc : recordConstraintsOf (cleanConfig cfg) = recordConstraintsOf cfg :=
    recordConstraintsOf_clean cfg
  have hic : initialCandidates db Y (cleanConfig cfg) = initialCandidates db Y cfg := by
    unfold initialCandidates
    rw [hoc]
  have hiem : initialEnumerationMode db Y (cleanConfig cfg) =
      initialEnumerationMode db Y cfg := by
    unfold initialEnumerationMode
    rw [hic]
  have hfc : finalCandidates db Y (cleanConfig cfg) = finalCandidates db Y cfg := by
    unfold finalCandidates
    rw [hrc, hic, hiem]
  exact findOiers_eq_of db Y _ _ hoc hfc (by rw [hrc])

/-- C10: whenever the candidate set is non-null before a record constraint
is processed, the candidate set after that constraint is a subset of it,
and every identifier in the final candidate set was already present in
that earlier candidate set. -/
theorem candidate_set_monotone (db : DB) (Y : Int) (cfg : QueryConfig)
    (ev : StepTrace) (hmem : ev ∈ recordEvents db Y cfg)
    (s : Finset Nat) (hs : ev.candBefore = some s) :
    ev.candAfter ⊆ s ∧
    (∀ t, finalCandidates db Y cfg = some t → t ⊆ s) := by
  refine ⟨(runConstraints_events_mem db _ _ _ ev hmem).2.2 s hs, ?_⟩
  intro t ht
  exact runConstraints_final_subset_events db _ _ _ ev hmem s hs t ht

/-- Witness for C10: on the example database a year constraint narrows the
base candidate set from two to one identifier, a subset of the earlier
set. -/
theorem candidate_set_monotone_witness :
    (⟨some {1, 2}, true, true, {1}, true⟩ : StepTrace).candAfter ⊆ {1, 2} :=
  (candidate_set_monotone exDB 2024 ⟨some (some 2020, none), none, some [yearRC 2022]⟩
    ⟨some {1, 2}, true, true, {1}, true⟩ (by decide) {1, 2} (by decide)).1

end OIerFinder
